import Mathlib

/-!
Formal model of the url_exporter core: the protocol checkers and dispatch in
internal/checker/checker.go and the aggregation collector in
internal/metrics (Collector.Start / Collector.Collect), shallowly embedded
from the Go sources, together with theorems about retry behavior, counter
aggregation, snapshot consistency and the emitted metric surface.
-/

/-- Go map with string keys, embedded as an association list with distinct
keys maintained by insertion-or-replacement (Go assignment semantics). -/
abbrev GoMap (α : Type) : Type := List (String × α)

/-- Lookup in a Go map: the Go expression m[k] together with its presence bit. -/

def GoMap.find {α : Type} : GoMap α → String → Option α
  | [], _ => none
  | (k, v) :: rest, key => if k = key then some v else GoMap.find rest key

/-- Go map assignment m[k] = v: replace the binding if present, else add it. -/

def GoMap.insert {α : Type} : GoMap α → String → α → GoMap α
  | [], key, v => [(key, v)]
  | (k, w) :: rest, key, v =>
      if k = key then (key, v) :: rest else (k, w) :: GoMap.insert rest key v

/-- Go increment m[k]++ on an int-valued map: missing keys count as zero. -/

def GoMap.bump : GoMap Nat → String → GoMap Nat
  | [], key => [(key, 1)]
  | (k, n) :: rest, key =>
      if k = key then (k, n + 1) :: rest else (k, n) :: GoMap.bump rest key

inductive CheckError where
  /-- wraps a rest ExecutionError: DNS, refused connection, TLS, timeout. -/
  | network (msg : String)
  /-- unclassified failure of the rest request. -/
  | requestFailed (msg : String)
  /-- raw TCP connect failed. -/
  | connectionFailed (host : String) (port : Nat)
  /-- telnet checker saw a scheme with no default port and no explicit one. -/
  | noDefaultPort (scheme : String)
  /-- performCheck found no checker registered for the scheme. -/
  | unsupportedProtocol (scheme : String)
deriving DecidableEq, Repr

/-- Embedding of checker.Result: one outcome of checking one target.
Durations and timestamps are abstract time units carried as naturals. -/
structure Result where
  url : String
  host : String
  path : String
  statusCode : Int
  responseTime : Nat
  error : Option CheckError
  timestamp : Nat
deriving DecidableEq, Repr

/-- Status label used by the collector ingest loop: the stringified status
code when the result has no error, the sentinel "error" otherwise. -/
def statusLabel (r : Result) : String :=
  match r.error with
  | none => toString r.statusCode
  | some _ => "error"

/-- State of the metrics Collector: last result per URL and the per-URL
per-status-label counters. -/
structure CollectorState where
  lastResults : GoMap Result
  counters : GoMap (GoMap Nat)
deriving DecidableEq, Repr

/-- Initialization in Collector.Start: an empty counter map per target. -/

def initState (targets : List String) : CollectorState :=
  ⟨[], targets.foldl (fun m u => GoMap.insert m u []) []⟩

/-- One iteration of the ingest loop in Collector.Start: store the result as
the target's last result and bump the counter for its status label. -/
def ingest (s : CollectorState) (r : Result) : CollectorState :=
  ⟨GoMap.insert s.lastResults r.url r,
   GoMap.insert s.counters r.url
     (GoMap.bump ((GoMap.find s.counters r.url).getD []) (statusLabel r))⟩

/-- Ingesting a whole sequence of results, in order. -/

def ingestAll (s : CollectorState) (rs : List Result) : CollectorState :=
  rs.foldl ingest s

/-- The counter value for a (target, label) pair; absent keys read as zero. -/

def countOf (s : CollectorState) (u label : String) : Nat :=
  (GoMap.find ((GoMap.find s.counters u).getD []) label).getD 0

/-- Outcome of one attempt of restClient.MakeRequest, as classified by the
error taxonomy of the rest package that HTTPChecker.Check switches on. -/
inductive RestOutcome where
  /-- the request completed and the response carried this status code. -/
  | ok (statusCode : Int)
  /-- rest.ExecutionError: the exchange did not complete (DNS failure,
  refused connection, TLS failure, timeout, redirect limit). -/
  | executionError (msg : String)
  /-- rest.UnauthorizedError carrying the response status code. -/
  | unauthorizedError (statusCode : Int)
  /-- rest.ResourceNotFoundError carrying the response status code. -/
  | resourceNotFoundError (statusCode : Int)
  /-- rest.ServerError carrying the response status code. -/
  | serverError (statusCode : Int)
  /-- rest.ResponseError carrying the response status code. -/
  | responseError (statusCode : Int)
  /-- any other error returned by MakeRequest (default switch branch). -/
  | otherError (msg : String)
deriving DecidableEq, Repr

/-- Embedding of HTTPChecker.Check: the switch on the rest error taxonomy.
Every outcome in which the server answered yields its literal status code
with no error; only transport-level failures become errors. -/
def HTTPChecker.check : RestOutcome → Int × Option CheckError
  | RestOutcome.ok c => (c, none)
  | RestOutcome.executionError m => (0, some (CheckError.network m))
  | RestOutcome.unauthorizedError c => (c, none)
  | RestOutcome.resourceNotFoundError c => (c, none)
  | RestOutcome.serverError c => (c, none)
  | RestOutcome.responseError c => (c, none)
  | RestOutcome.otherError m => (0, some (CheckError.requestFailed m))

/-- The status code delivered by the server, when the wire-level exchange
completed; none when the exchange failed to complete. -/
def answeredCode : RestOutcome → Option Int
  | RestOutcome.ok c => some c
  | RestOutcome.executionError _ => none
  | RestOutcome.unauthorizedError c => some c
  | RestOutcome.resourceNotFoundError c => some c
  | RestOutcome.serverError c => some c
  | RestOutcome.responseError c => some c
  | RestOutcome.otherError _ => none

/-- Whether an attempt outcome is a connection-level failure (the retryable
class: the exchange did not complete). -/
def isTransportError : RestOutcome → Bool
  | RestOutcome.executionError _ => true
  | RestOutcome.otherError _ => true
  | _ => false

/-- Parsed form of a target URL, as produced by net/url.Parse: scheme,
hostname, optional explicit port, path and raw query. -/
structure URL where
  scheme : String
  hostname : String
  port : Option Nat
  path : String
  rawQuery : String
deriving DecidableEq, Repr

/-- Go u.Host: hostname, with the explicit port appended when present. -/

def URL.hostString (u : URL) : String :=
  match u.port with
  | none => u.hostname
  | some p => u.hostname ++ ":" ++ toString p

/-- The raw target string the URL was parsed from. -/

def URL.render (u : URL) : String :=
  u.scheme ++ "://" ++ URL.hostString u ++ u.path ++
    (if u.rawQuery = "" then "" else "?" ++ u.rawQuery)

/-- Embedding of parseURL: host is scheme plus authority, path defaults to
the root and carries the query string when present. -/
def parseURL (u : URL) : String × String :=
  let host := u.scheme ++ "://" ++ URL.hostString u
  let path0 := if u.path = "" then "/" else u.path
  let path1 := if u.rawQuery = "" then path0 else path0 ++ "?" ++ u.rawQuery
  (host, path1)

/-- Default ports of the telnet checker, from the switch in
TelnetChecker.Check. -/
def defaultPort : String → Option Nat
  | "ftp" => some 21
  | "sftp" => some 22
  | "ssh" => some 22
  | "telnet" => some 23
  | "smtp" => some 25
  | "mysql" => some 3306
  | "postgres" => some 5432
  | "postgresql" => some 5432
  | "redis" => some 6379
  | "mongodb" => some 27017
  | _ => none

/-- The port the telnet checker dials: the explicit port when the target has
one, otherwise the well-known default for the scheme. -/
def TelnetChecker.effectivePort (u : URL) : Option Nat :=
  match u.port with
  | some p => some p
  | none => defaultPort u.scheme

/-- Embedding of TelnetChecker.Check. The dial argument abstracts the
outcome of the bounded TCP connect: true when the connect succeeds within
the timeout. A successful connect maps to status code 200 regardless of the
application protocol; a failed connect or a missing port is an error. -/
def TelnetChecker.check (dial : String → Nat → Bool) (u : URL) :
    Int × Option CheckError :=
  match TelnetChecker.effectivePort u with
  | none => (0, some (CheckError.noDefaultPort u.scheme))
  | some p =>
      if dial u.hostname p then (200, none)
      else (0, some (CheckError.connectionFailed u.hostname p))

/-- The two checker families registered in New. -/

inductive ProtoKind where
  | httpKind
  | telnetKind
deriving DecidableEq, Repr

/-- The scheme-to-checker table built in New: http and https map to the
HTTP checker, the ten listed raw-connect schemes to the telnet checker, and
every other scheme is unregistered. -/
def schemeKind : String → Option ProtoKind
  | "http" => some ProtoKind.httpKind
  | "https" => some ProtoKind.httpKind
  | "ftp" => some ProtoKind.telnetKind
  | "sftp" => some ProtoKind.telnetKind
  | "ssh" => some ProtoKind.telnetKind
  | "telnet" => some ProtoKind.telnetKind
  | "smtp" => some ProtoKind.telnetKind
  | "mysql" => some ProtoKind.telnetKind
  | "postgres" => some ProtoKind.telnetKind
  | "postgresql" => some ProtoKind.telnetKind
  | "redis" => some ProtoKind.telnetKind
  | "mongodb" => some ProtoKind.telnetKind
  | _ => none

/-- Network behavior during one checkURL run: the outcome of the k-th HTTP
attempt made by the rest client, and the result of a TCP dial. -/
structure NetEnv where
  restOutcomes : Nat → RestOutcome
  dial : String → Nat → Bool

/-- Modelled from the spec: the retry engine inside the external rest client
(github.com/jasoet/pkg/rest), whose source is not part of this repository.
New configures it with RetryCount equal to the configured retries and a
base wait of one second; per the spec the attempt sequence stops at the
first non-error outcome and performs at most the configured number of
additional attempts. restStop f a r is the index of the final attempt when
attempts from index a with r retries remaining error according to f. -/
def restStop (f : Nat → Bool) : Nat → Nat → Nat
  | a, 0 => a
  | a, r + 1 => if f a then restStop f (a + 1) r else a

/-- Index of the final attempt the rest client performs for one request. -/

def restFinalIndex (env : NetEnv) (retries : Nat) : Nat :=
  restStop (fun k => isTransportError (env.restOutcomes k)) 0 retries

/-- Modelled from the spec: the outcome restClient.MakeRequest reports, the
outcome of the final attempt of its internal retry sequence. -/
def makeRequest (env : NetEnv) (retries : Nat) : RestOutcome :=
  env.restOutcomes (restFinalIndex env retries)

/-- Total number of attempts the rest client performs for one request. -/

def restAttempts (env : NetEnv) (retries : Nat) : Nat :=
  restFinalIndex env retries + 1

/-- Modelled from the spec: total backoff wait in seconds of the rest client
retry sequence, with a linear wait of k seconds before attempt k. -/
def restBackoff (env : NetEnv) (retries : Nat) : Nat :=
  restFinalIndex env retries * (restFinalIndex env retries + 1) / 2

/-- Embedding of Checker.performCheck: dispatch on the URL scheme through
the table built in New, with an unsupported-protocol error for unregistered
schemes. -/
def performCheck (retries : Nat) (env : NetEnv) (u : URL) :
    Int × Option CheckError :=
  match schemeKind u.scheme with
  | none => (0, some (CheckError.unsupportedProtocol u.scheme))
  | some ProtoKind.httpKind => HTTPChecker.check (makeRequest env retries)
  | some ProtoKind.telnetKind => TelnetChecker.check env.dial u

/-- Number of network attempts one performCheck run makes: none for an
unsupported scheme, the rest client attempt count for HTTP targets, and a
single dial for telnet targets with a resolvable port. -/
def checkAttempts (retries : Nat) (env : NetEnv) (u : URL) : Nat :=
  match schemeKind u.scheme with
  | none => 0
  | some ProtoKind.httpKind => restAttempts env retries
  | some ProtoKind.telnetKind =>
      match TelnetChecker.effectivePort u with
      | none => 0
      | some _ => 1

/-- Total backoff wait in seconds of one performCheck run: nonzero only for
HTTP targets, whose rest client sleeps between its internal attempts. -/
def checkBackoff (retries : Nat) (env : NetEnv) (u : URL) : Nat :=
  match schemeKind u.scheme with
  | some ProtoKind.httpKind => restBackoff env retries
  | _ => 0

/-- Wall-clock duration of one performCheck run, given the duration of each
individual network attempt: for HTTP targets it accumulates every attempt
of the rest client plus its backoff waits; for telnet targets it is the
single dial. -/
def checkDuration (retries : Nat) (env : NetEnv) (attemptDur : Nat → Nat)
    (u : URL) : Nat :=
  match schemeKind u.scheme with
  | none => 0
  | some ProtoKind.httpKind =>
      ((List.range (restAttempts env retries)).map attemptDur).sum +
        restBackoff env retries
  | some ProtoKind.telnetKind =>
      match TelnetChecker.effectivePort u with
      | none => 0
      | some _ => attemptDur 0

/-- Embedding of Checker.checkURL: the result record is created with the
entry-time timestamp, then performCheck runs once; a non-error outcome
stores the status code and the elapsed time of the whole performCheck call,
an error outcome stores the error with a zero status code. t0 is the time
at entry to checkURL. -/
def checkURL (retries : Nat) (env : NetEnv) (attemptDur : Nat → Nat)
    (t0 : Nat) (u : URL) : Result :=
  let hp := parseURL u
  let co := performCheck retries env u
  match co.2 with
  | none =>
      { url := URL.render u, host := hp.1, path := hp.2, statusCode := co.1,
        responseTime := checkDuration retries env attemptDur u,
        error := none, timestamp := t0 }
  | some e =>
      { url := URL.render u, host := hp.1, path := hp.2, statusCode := 0,
        responseTime := 0, error := some e, timestamp := t0 }

/-- The time at which a checkURL run completes: its entry time plus the
duration of the check it performs. -/
def checkCompletionTime (retries : Nat) (env : NetEnv) (attemptDur : Nat → Nat)
    (t0 : Nat) (u : URL) : Nat :=
  t0 + checkDuration retries env attemptDur u

/-- One metric sample pushed on the collect channel: a gauge or counter with
its metric name, label values, and sample value. -/
inductive Metric where
  | gauge (name : String) (labels : List String) (value : Int)
  | counter (name : String) (labels : List String) (value : Nat)
deriving DecidableEq, Repr

/-- Embedding of the gauge block of Collector.Collect for one last result:
url_up, url_error, and (only without an error) the response-time and
status-code gauges. -/
def collectGauges (instanceID : String) (r : Result) : List Metric :=
  let labels := [r.url, r.host, r.path, instanceID]
  let up : Int :=
    if r.error = none ∧ 200 ≤ r.statusCode ∧ r.statusCode < 300 then 1 else 0
  let errVal : Int := if r.error = none then 0 else 1
  [Metric.gauge "url_up" labels up, Metric.gauge "url_error" labels errVal] ++
    (if r.error = none then
      [Metric.gauge "url_response_time_milliseconds" labels
        (Int.ofNat r.responseTime),
       Metric.gauge "url_http_status_code" labels r.statusCode]
    else [])

/-- Embedding of the counter block of Collector.Collect: counters of a URL
are emitted only when the URL has a last result, whose host and path supply
the label values; url_check_total and url_status_code_total are emitted with
the same value. -/
def collectCounters (instanceID : String) (s : CollectorState) : List Metric :=
  s.counters.flatMap (fun p =>
    match GoMap.find s.lastResults p.1 with
    | none => []
    | some r =>
        p.2.flatMap (fun q =>
          [Metric.counter "url_check_total" [p.1, r.host, r.path, q.1, instanceID] q.2,
           Metric.counter "url_status_code_total" [p.1, r.host, r.path, q.1, instanceID] q.2]))

/-- Embedding of Collector.Collect: gauges from every last result, then the
counters. -/
def collect (instanceID : String) (s : CollectorState) : List Metric :=
  (s.lastResults.flatMap (fun p => collectGauges instanceID p.2)) ++
    collectCounters instanceID s

/-- The value of the first gauge with the given metric name in a sample
list, if any. -/
def findGauge : List Metric → String → Option Int
  | [], _ => none
  | Metric.gauge nm _ v :: rest, n =>
      if nm = n then some v else findGauge rest n
  | Metric.counter _ _ _ :: rest, n => findGauge rest n

/-- Progress of the single ingest writer through its critical section: the
collector mutex is held in every phase other than idle. -/
inductive Phase where
  | idle
  | gotLock (r : Result)
  | wroteLast (r : Result)
  | wroteCounter (r : Result)
deriving DecidableEq, Repr

/-- The collector store together with the writer's position inside or
outside the locked region of the ingest loop. -/
structure SysState where
  store : CollectorState
  phase : Phase
deriving DecidableEq, Repr

/-- Small-step semantics of one iteration of the ingest loop in
Collector.Start: acquire the mutex, write the last result, bump the counter,
release the mutex. The two map writes are separate steps, both inside the
locked region. -/
inductive IngestStep : SysState → SysState → Prop where
  | acquire (s : CollectorState) (r : Result) :
      IngestStep ⟨s, Phase.idle⟩ ⟨s, Phase.gotLock r⟩
  | writeLast (s : CollectorState) (r : Result) :
      IngestStep ⟨s, Phase.gotLock r⟩
        ⟨⟨GoMap.insert s.lastResults r.url r, s.counters⟩, Phase.wroteLast r⟩
  | writeCounter (s : CollectorState) (r : Result) :
      IngestStep ⟨s, Phase.wroteLast r⟩
        ⟨⟨s.lastResults,
          GoMap.insert s.counters r.url
            (GoMap.bump ((GoMap.find s.counters r.url).getD [])
              (statusLabel r))⟩, Phase.wroteCounter r⟩
  | release (s : CollectorState) (r : Result) :
      IngestStep ⟨s, Phase.wroteCounter r⟩ ⟨s, Phase.idle⟩

/-- States the ingest writer can drive the system into from the initialized
collector. -/
def ReachableFrom (targets : List String) (st : SysState) : Prop :=
  Relation.ReflTransGen IngestStep ⟨initState targets, Phase.idle⟩ st

/-- Phase-indexed description of the store: outside the locked region the
store is always a whole number of completed ingests; in the middle of the
locked region it is a completed prefix plus the identified partial write. -/
def phaseInv (targets : List String) (st : SysState) : Prop :=
  match st.phase with
  | Phase.idle => ∃ rs, st.store = ingestAll (initState targets) rs
  | Phase.gotLock _ => ∃ rs, st.store = ingestAll (initState targets) rs
  | Phase.wroteLast r => ∃ rs,
      st.store = ⟨GoMap.insert (ingestAll (initState targets) rs).lastResults r.url r,
                  (ingestAll (initState targets) rs).counters⟩
  | Phase.wroteCounter r => ∃ rs,
      st.store = ingestAll (initState targets) (rs ++ [r])

/-- A store is pair-consistent when every last result has a nonzero counter
for its own outcome label. -/
def pairConsistent (s : CollectorState) : Prop :=
  ∀ u r, GoMap.find s.lastResults u = some r → 1 ≤ countOf s u (statusLabel r)

/-- State of the Checker relevant to Shutdown: whether Start has installed
the cancel function, and whether the checker context has been cancelled. -/
structure CheckerState where
  cancelSet : Bool
  ctxCancelled : Bool
deriving DecidableEq, Repr

/-- Embedding of Checker.Shutdown: read the cancel function under the read
lock, invoke it when present, and return a nil error. -/
def Checker.shutdown (s : CheckerState) : CheckerState × Option String :=
  (if s.cancelSet then { s with ctxCancelled := true } else s, none)

/-- Sample raw-connect target with an explicit port, ftp on db.example:21. -/
def uFtp : URL := ⟨"ftp", "db.example", some 21, "", ""⟩

/-- Sample HTTP target, http on db.example:80. -/
def uHttpSample : URL := ⟨"http", "db.example", some 80, "", ""⟩

/-- Sample target with a scheme no checker is registered for. -/
def uGopher : URL := ⟨"gopher", "example.com", none, "", ""⟩

/-- Network behavior in which every HTTP attempt fails at connection level
and every TCP dial is refused. -/
def envRefused : NetEnv :=
  ⟨fun _ => RestOutcome.executionError "connection refused", fun _ _ => false⟩

/-- Network behavior in which the first HTTP attempt is refused and every
later one answers 200, with TCP dials succeeding. -/
def envRetryOk : NetEnv :=
  ⟨fun k => if k = 0 then RestOutcome.executionError "connection refused"
            else RestOutcome.ok 200,
   fun _ _ => true⟩

/-- Sample successful check result for target http://a. -/
def rSample : Result := ⟨"http://a", "http://a", "/", 200, 5, none, 0⟩

/-- Sample check result for target http://a whose server answered 500. -/
def r500 : Result := ⟨"http://a", "http://a", "/", 500, 5, none, 0⟩

/-- System state at the end of one complete ingest of the sample result,
with the writer outside the critical section. -/
def stWitness : SysState :=
  ⟨ingest (initState ["http://a"]) rSample, Phase.idle⟩

theorem GoMap.find_insert_self {α : Type} (m : GoMap α) (k : String) (v : α) :
    GoMap.find (GoMap.insert m k v) k = some v := by
  induction m with
  | nil => simp [GoMap.insert, GoMap.find]
  | cons p rest ih =>
      obtain ⟨k1, v1⟩ := p
      by_cases h : k1 = k
      · simp [GoMap.insert, GoMap.find, h]
      · simp [GoMap.insert, GoMap.find, h, ih]

theorem GoMap.find_insert_ne {α : Type} (m : GoMap α) (k key : String) (v : α)
    (h : k ≠ key) : GoMap.find (GoMap.insert m key v) k = GoMap.find m k := by
  have hk : ¬ key = k := fun hh => h hh.symm
  induction m with
  | nil => simp [GoMap.insert, GoMap.find, hk]
  | cons p rest ih =>
      obtain ⟨k1, v1⟩ := p
      by_cases h1 : k1 = key
      · subst h1
        simp [GoMap.insert, GoMap.find, hk]
      · by_cases h2 : k1 = k
        · simp [GoMap.insert, GoMap.find, h1, h2, h]
        · simp [GoMap.insert, GoMap.find, h1, h2, ih]

theorem GoMap.bump_getD_self (m : GoMap Nat) (k : String) :
    (GoMap.find (GoMap.bump m k) k).getD 0 = (GoMap.find m k).getD 0 + 1 := by
  induction m with
  | nil => simp [GoMap.bump, GoMap.find]
  | cons p rest ih =>
      obtain ⟨k1, n1⟩ := p
      by_cases h : k1 = k
      · simp [GoMap.bump, GoMap.find, h]
      · simp [GoMap.bump, GoMap.find, h, ih]

theorem GoMap.bump_find_ne (m : GoMap Nat) (k key : String) (h : k ≠ key) :
    GoMap.find (GoMap.bump m key) k = GoMap.find m k := by
  have hk : ¬ key = k := fun hh => h hh.symm
  induction m with
  | nil => simp [GoMap.bump, GoMap.find, hk]
  | cons p rest ih =>
      obtain ⟨k1, n1⟩ := p
      by_cases h1 : k1 = key
      · subst h1
        simp [GoMap.bump, GoMap.find, hk]
      · by_cases h2 : k1 = k
        · simp [GoMap.bump, GoMap.find, h1, h2, h]
        · simp [GoMap.bump, GoMap.find, h1, h2, ih]

theorem GoMap.find_some_mem {α : Type} (m : GoMap α) (k : String) (v : α)
    (h : GoMap.find m k = some v) : (k, v) ∈ m := by
  induction m with
  | nil => simp [GoMap.find] at h
  | cons p rest ih =>
      obtain ⟨k1, v1⟩ := p
      by_cases h1 : k1 = k
      · subst h1
        simp [GoMap.find] at h
        subst h
        exact List.mem_cons_self _ _
      · simp [GoMap.find, h1] at h
        exact List.mem_cons_of_mem _ (ih h)

/-- Typed embedding of the error values produced by the checker package. -/

theorem countOf_ingest (s : CollectorState) (r : Result) (t l : String) :
    countOf (ingest s r) t l =
      countOf s t l + (if t = r.url ∧ l = statusLabel r then 1 else 0) := by
  by_cases ht : t = r.url
  · subst ht
    unfold countOf ingest
    simp only [GoMap.find_insert_self, Option.getD_some]
    by_cases hl : l = statusLabel r
    · subst hl
      simp [GoMap.bump_getD_self]
    · rw [GoMap.bump_find_ne _ _ _ hl]
      simp [hl]
  · unfold countOf ingest
    simp only
    rw [GoMap.find_insert_ne _ _ _ _ ht]
    simp [ht]

theorem lastResults_ingest_self (s : CollectorState) (r : Result) :
    GoMap.find (ingest s r).lastResults r.url = some r := by
  unfold ingest
  exact GoMap.find_insert_self _ _ _

theorem lastResults_ingest_ne (s : CollectorState) (r : Result) (t : String)
    (h : t ≠ r.url) :
    GoMap.find (ingest s r).lastResults t = GoMap.find s.lastResults t := by
  unfold ingest
  exact GoMap.find_insert_ne _ _ _ _ h

theorem initCounters_find (ts : List String) (acc : GoMap (GoMap Nat))
    (hacc : ∀ u v, GoMap.find acc u = some v → v = []) :
    ∀ u v, GoMap.find (ts.foldl (fun m u => GoMap.insert m u []) acc) u = some v →
      v = [] := by
  induction ts generalizing acc with
  | nil => exact hacc
  | cons t rest ih =>
      refine ih (GoMap.insert acc t []) ?_
      intro u v hv
      by_cases hu : u = t
      · subst hu
        rw [GoMap.find_insert_self] at hv
        exact (Option.some_injective _ hv).symm
      · rw [GoMap.find_insert_ne _ _ _ _ hu] at hv
        exact hacc u v hv

theorem countOf_init (ts : List String) (t l : String) :
    countOf (initState ts) t l = 0 := by
  unfold countOf initState
  simp only
  cases hfind : GoMap.find (ts.foldl (fun m u => GoMap.insert m u []) []) t with
  | none => simp [GoMap.find]
  | some inner =>
      have : inner = [] := by
        refine initCounters_find ts [] ?_ t inner hfind
        intro u v hv
        simp [GoMap.find] at hv
      subst this
      simp [GoMap.find]

theorem countOf_ingestAll (s : CollectorState) (rs : List Result) (t l : String) :
    countOf (ingestAll s rs) t l =
      countOf s t l +
        (rs.filter (fun r => decide (t = r.url ∧ l = statusLabel r))).length := by
  induction rs generalizing s with
  | nil => simp [ingestAll]
  | cons r rest ih =>
      have hstep : ingestAll s (r :: rest) = ingestAll (ingest s r) rest := rfl
      rw [hstep, ih, countOf_ingest]
      by_cases hc : t = r.url ∧ l = statusLabel r
      · simp [hc]
        omega
      · simp [hc]

theorem countOf_ingest_mono (s : CollectorState) (r : Result) (t l : String) :
    countOf s t l ≤ countOf (ingest s r) t l := by
  rw [countOf_ingest]
  omega

theorem httpCheck_error_iff (o : RestOutcome) :
    (HTTPChecker.check o).2.isSome = isTransportError o := by
  cases o <;> rfl

theorem restStop_all (f : Nat → Bool) :
    ∀ r a, (∀ k, a ≤ k → k < a + r → f k = true) → restStop f a r = a + r := by
  intro r
  induction r with
  | zero => intro a _; simp [restStop]
  | succ r ih =>
      intro a h
      have hfa : f a = true := h a (Nat.le_refl a) (by omega)
      have hrec : restStop f (a + 1) r = (a + 1) + r := by
        refine ih (a + 1) ?_
        intro k hk1 hk2
        exact h k (by omega) (by omega)
      simp [restStop, hfa, hrec]
      omega

theorem restStop_first (f : Nat → Bool) :
    ∀ r a n, a ≤ n → n ≤ a + r → (∀ k, a ≤ k → k < n → f k = true) →
      f n = false → restStop f a r = n := by
  intro r
  induction r with
  | zero =>
      intro a n h1 h2 _ _
      have : a = n := by omega
      simp [restStop, this]
  | succ r ih =>
      intro a n h1 h2 hall hn
      by_cases hcase : a = n
      · subst hcase
        simp [restStop, hn]
      · have hfa : f a = true := hall a (Nat.le_refl a) (by omega)
        have hrec : restStop f (a + 1) r = n := by
          refine ih (a + 1) n (by omega) (by omega) ?_ hn
          intro k hk1 hk2
          exact hall k (by omega) hk2
        simp [restStop, hfa, hrec]

theorem ingestAll_append_one (s : CollectorState) (rs : List Result) (r : Result) :
    ingestAll s (rs ++ [r]) = ingest (ingestAll s rs) r := by
  unfold ingestAll
  rw [List.foldl_append]
  rfl

theorem phaseInv_step (targets : List String) (a b : SysState)
    (hstep : IngestStep a b) (hinv : phaseInv targets a) : phaseInv targets b := by
  cases hstep with
  | acquire s r => exact hinv
  | writeLast s r =>
      obtain ⟨rs, hrs⟩ := hinv
      have hs : s = ingestAll (initState targets) rs := hrs
      subst hs
      exact ⟨rs, rfl⟩
  | writeCounter s r =>
      obtain ⟨rs, hrs⟩ := hinv
      have hs : s =
          ⟨GoMap.insert (ingestAll (initState targets) rs).lastResults r.url r,
           (ingestAll (initState targets) rs).counters⟩ := hrs
      subst hs
      refine ⟨rs, ?_⟩
      rw [ingestAll_append_one]
      rfl
  | release s r =>
      obtain ⟨rs, hrs⟩ := hinv
      exact ⟨rs ++ [r], hrs⟩

theorem phaseInv_reachable (targets : List String) (st : SysState)
    (h : ReachableFrom targets st) : phaseInv targets st := by
  induction h with
  | refl => exact ⟨[], rfl⟩
  | tail _ hstep ih => exact phaseInv_step targets _ _ hstep ih

theorem pairConsistent_init (ts : List String) : pairConsistent (initState ts) := by
  intro u r h
  simp [initState, GoMap.find] at h

theorem pairConsistent_ingest (s : CollectorState) (r0 : Result)
    (h : pairConsistent s) : pairConsistent (ingest s r0) := by
  intro u r hfind
  by_cases hu : u = r0.url
  · subst hu
    rw [lastResults_ingest_self] at hfind
    have : r = r0 := Option.some_injective _ hfind.symm
    subst this
    rw [countOf_ingest]
    simp
  · rw [lastResults_ingest_ne _ _ _ hu] at hfind
    calc 1 ≤ countOf s u (statusLabel r) := h u r hfind
    _ ≤ countOf (ingest s r0) u (statusLabel r) := countOf_ingest_mono _ _ _ _

theorem pairConsistent_ingestAll (ts : List String) (rs : List Result) :
    pairConsistent (ingestAll (initState ts) rs) := by
  suffices hgen : ∀ s, pairConsistent s → pairConsistent (ingestAll s rs) from
    hgen (initState ts) (pairConsistent_init ts)
  induction rs with
  | nil => intro s hs; exact hs
  | cons r rest ih =>
      intro s hs
      exact ih (ingest s r) (pairConsistent_ingest s r hs)

theorem httpCheck_error_none (o : RestOutcome) (h : isTransportError o = false) :
    (HTTPChecker.check o).2 = none := by
  cases o <;> simp_all [HTTPChecker.check, isTransportError]

theorem lastResults_ingest_isSome (s : CollectorState) (r : Result) (u : String)
    (h : (GoMap.find s.lastResults u).isSome = true) :
    (GoMap.find (ingest s r).lastResults u).isSome = true := by
  by_cases hu : u = r.url
  · subst hu
    rw [lastResults_ingest_self]
    rfl
  · rw [lastResults_ingest_ne _ _ _ hu]
    exact h

theorem lastResults_ingestAll_isSome :
    ∀ (rs : List Result) (s : CollectorState) (u : String),
      ((GoMap.find s.lastResults u).isSome = true ∨ ∃ r ∈ rs, r.url = u) →
      (GoMap.find (ingestAll s rs).lastResults u).isSome = true := by
  intro rs
  induction rs with
  | nil =>
      intro s u h
      rcases h with h | ⟨r, hr, _⟩
      · exact h
      · simp at hr
  | cons r0 rest ih =>
      intro s u h
      have hstep : ingestAll s (r0 :: rest) = ingestAll (ingest s r0) rest := rfl
      rw [hstep]
      rcases h with h | ⟨r, hr, hurl⟩
      · exact ih (ingest s r0) u (Or.inl (lastResults_ingest_isSome s r0 u h))
      · rcases List.mem_cons.mp hr with hr0 | hrest
        · subst hr0
          refine ih (ingest s r) u (Or.inl ?_)
          subst hurl
          rw [lastResults_ingest_self]
          rfl
        · exact ih (ingest s r0) u (Or.inr ⟨r, hrest, hurl⟩)

theorem countOf_nonzero_structure (s : CollectorState) (u l : String)
    (h : countOf s u l ≠ 0) :
    ∃ inner n, GoMap.find s.counters u = some inner ∧
      GoMap.find inner l = some n ∧ n = countOf s u l := by
  cases hc : GoMap.find s.counters u with
  | none =>
      exfalso
      apply h
      unfold countOf
      rw [hc]
      simp [GoMap.find]
  | some inner =>
      cases hl : GoMap.find inner l with
      | none =>
          exfalso
          apply h
          unfold countOf
          rw [hc]
          simp [hl]
      | some n =>
          refine ⟨inner, n, rfl, hl, ?_⟩
          unfold countOf
          rw [hc]
          simp [hl]

theorem counter_mem_collect (iid : String) (s : CollectorState) (u l : String)
    (n : Nat) (r : Result) (inner : GoMap Nat)
    (hc : GoMap.find s.counters u = some inner)
    (hl : GoMap.find inner l = some n)
    (hr : GoMap.find s.lastResults u = some r) :
    Metric.counter "url_check_total" [u, r.host, r.path, l, iid] n ∈
      collect iid s := by
  unfold collect
  refine List.mem_append_right _ ?_
  unfold collectCounters
  refine List.mem_flatMap.mpr ⟨(u, inner), GoMap.find_some_mem _ _ _ hc, ?_⟩
  simp only [hr]
  refine List.mem_flatMap.mpr ⟨(l, n), GoMap.find_some_mem _ _ _ hl, ?_⟩
  simp

theorem gauges_mem_collect (iid : String) (s : CollectorState) (u : String)
    (r : Result) (hr : GoMap.find s.lastResults u = some r) (m : Metric)
    (hm : m ∈ collectGauges iid r) : m ∈ collect iid s := by
  unfold collect
  refine List.mem_append_left _ ?_
  exact List.mem_flatMap.mpr ⟨(u, r), GoMap.find_some_mem _ _ _ hr, hm⟩

/-- C2: every ingested result becomes the target's last result, increments
exactly the counter for its status label (the stringified status code
without an error, the sentinel "error" with one) by exactly one, counters
never decrease, and after any sequence of ingests from the initialized
state the counter of a (target, label) pair equals the number of ingested
results that produced exactly that outcome for that target. -/
theorem c2_counter_fidelity :
    (∀ s r, GoMap.find (ingest s r).lastResults r.url = some r) ∧
    (∀ s r t l, countOf (ingest s r) t l =
        countOf s t l + (if t = r.url ∧ l = statusLabel r then 1 else 0)) ∧
    (∀ s r t l, countOf s t l ≤ countOf (ingest s r) t l) ∧
    (∀ ts rs t l, countOf (ingestAll (initState ts) rs) t l =
        (rs.filter (fun r => decide (t = r.url ∧ l = statusLabel r))).length) := by
  refine ⟨lastResults_ingest_self, countOf_ingest, countOf_ingest_mono, ?_⟩
  intro ts rs t l
  rw [countOf_ingestAll, countOf_init]
  simp

/-- C9: Shutdown is idempotent: it always returns a nil error, and a second
call leaves the state of the first call unchanged and again returns a nil
error, for every state of the Checker. -/
theorem c9_shutdown_idempotent :
    ∀ s : CheckerState,
      (Checker.shutdown s).2 = none ∧
      Checker.shutdown (Checker.shutdown s).1 = ((Checker.shutdown s).1, none) := by
  intro s
  cases s with
  | mk cancelSet ctxCancelled =>
      cases cancelSet <;> simp [Checker.shutdown]

/-- C4: whenever the server answers an HTTP(S) probe — whatever the status
class, 2xx, 4xx or 5xx alike — HTTPChecker.Check returns the literal status
code with no error; it reports an error exactly when the wire-level
exchange failed to complete. -/
theorem c4_http_status_classes :
    (∀ o c, answeredCode o = some c → HTTPChecker.check o = (c, none)) ∧
    (∀ o, (HTTPChecker.check o).2.isSome = true ↔ answeredCode o = none) := by
  constructor
  · intro o c h
    cases o <;> simp [answeredCode] at h <;> simp [HTTPChecker.check, h]
  · intro o
    cases o <;> simp [HTTPChecker.check, answeredCode]

/-- Witness for C4 at a concrete input: a 500 response is returned as
status code 500 with no error. -/
theorem c4_http_status_classes_witness :
    HTTPChecker.check (RestOutcome.serverError 500) = (500, none) :=
  c4_http_status_classes.1 (RestOutcome.serverError 500) 500 rfl

/-- C5: for a last result, url_up is 1 exactly when there is no error and
the status code lies in [200,300) (else 0), url_error is 1 exactly when the
result carries an error (else 0), the response-time and status-code gauges
are emitted exactly when there is no error, an HTTP 500 result yields
url_up = 0 and url_error = 0 with counter label "500", and the gauges of
every last result of a state appear in the Collect output. -/
theorem c5_gauge_semantics :
    (∀ iid r, findGauge (collectGauges iid r) "url_up" =
        some (if r.error = none ∧ 200 ≤ r.statusCode ∧ r.statusCode < 300
              then 1 else 0)) ∧
    (∀ iid r, findGauge (collectGauges iid r) "url_error" =
        some (if r.error = none then 0 else 1)) ∧
    (∀ iid r, (findGauge (collectGauges iid r)
        "url_response_time_milliseconds").isSome = true ↔ r.error = none) ∧
    (∀ iid r, (findGauge (collectGauges iid r)
        "url_http_status_code").isSome = true ↔ r.error = none) ∧
    (∀ iid r, r.error = none → r.statusCode = 500 →
        findGauge (collectGauges iid r) "url_up" = some 0 ∧
        findGauge (collectGauges iid r) "url_error" = some 0 ∧
        statusLabel r = "500") ∧
    (∀ iid s u r, GoMap.find s.lastResults u = some r →
        ∀ m, m ∈ collectGauges iid r → m ∈ collect iid s) := by
  refine ⟨?_, ?_, ?_, ?_, ?_, gauges_mem_collect⟩
  · intro iid r
    simp [collectGauges, findGauge]
  · intro iid r
    simp [collectGauges, findGauge]
  · intro iid r
    cases herr : r.error <;> simp [collectGauges, findGauge, herr]
  · intro iid r
    cases herr : r.error <;> simp [collectGauges, findGauge, herr]
  · intro iid r herr hsc
    refine ⟨?_, ?_, ?_⟩
    · simp [collectGauges, findGauge, herr, hsc]
    · simp [collectGauges, findGauge, herr]
    · simp [statusLabel, herr, hsc]
      rfl

/-- Witness for C5 at a concrete input: a 500 result has url_up = 0,
url_error = 0 and counter label "500". -/
theorem c5_gauge_semantics_witness :
    findGauge (collectGauges "inst" r500) "url_up" = some 0 ∧
    findGauge (collectGauges "inst" r500) "url_error" = some 0 ∧
    statusLabel r500 = "500" :=
  c5_gauge_semantics.2.2.2.2.1 "inst" r500 rfl rfl

/-- C6: the raw-connect checker dials the explicit port when the target has
one and otherwise the scheme's well-known default; a TCP connect that
succeeds within the timeout yields status code 200 with no error for any
such scheme, a failed connect or an unresolvable port is an error, every
scheme dispatched to the raw-connect checker has a default port, and the
dispatcher hands such targets to exactly this checker. -/
theorem c6_telnet_connect :
    (∀ u p dial, TelnetChecker.effectivePort u = some p →
        dial u.hostname p = true → TelnetChecker.check dial u = (200, none)) ∧
    (∀ u p dial, TelnetChecker.effectivePort u = some p →
        dial u.hostname p = false →
        TelnetChecker.check dial u =
          (0, some (CheckError.connectionFailed u.hostname p))) ∧
    (∀ u dial, TelnetChecker.effectivePort u = none →
        TelnetChecker.check dial u =
          (0, some (CheckError.noDefaultPort u.scheme))) ∧
    (∀ u, u.port = none → TelnetChecker.effectivePort u = defaultPort u.scheme) ∧
    (∀ u p, u.port = some p → TelnetChecker.effectivePort u = some p) ∧
    (∀ sch, schemeKind sch = some ProtoKind.telnetKind →
        (defaultPort sch).isSome = true) ∧
    (∀ retries env u, schemeKind u.scheme = some ProtoKind.telnetKind →
        performCheck retries env u = TelnetChecker.check env.dial u) := by
  refine ⟨?_, ?_, ?_, ?_, ?_, ?_, ?_⟩
  · intro u p dial hp hd
    simp [TelnetChecker.check, hp, hd]
  · intro u p dial hp hd
    simp [TelnetChecker.check, hp, hd]
  · intro u dial hp
    simp [TelnetChecker.check, hp]
  · intro u hp
    simp [TelnetChecker.effectivePort, hp]
  · intro u p hp
    simp [TelnetChecker.effectivePort, hp]
  · intro sch h
    unfold schemeKind at h
    split at h <;> first
      | rfl
      | simp at h
  · intro retries env u h
    simp [performCheck, h]

/-- Witness for C6 at a concrete input: an ftp target with explicit port 21
and a successful dial yields status 200 with no error. -/
theorem c6_telnet_connect_witness :
    TelnetChecker.check (fun _ _ => true) uFtp = (200, none) :=
  c6_telnet_connect.1 uFtp 21 (fun _ _ => true) rfl rfl

/-- C7: a target whose scheme has no registered checker produces the
unsupported-protocol error, performs no network attempt and no backoff
wait, and checkURL turns it into a terminal error result with status code
zero. -/
theorem c7_unsupported_protocol :
    ∀ retries env attemptDur t0 u, schemeKind u.scheme = none →
      performCheck retries env u =
        (0, some (CheckError.unsupportedProtocol u.scheme)) ∧
      checkAttempts retries env u = 0 ∧
      checkBackoff retries env u = 0 ∧
      (checkURL retries env attemptDur t0 u).error =
        some (CheckError.unsupportedProtocol u.scheme) ∧
      (checkURL retries env attemptDur t0 u).statusCode = 0 := by
  intro retries env attemptDur t0 u h
  refine ⟨?_, ?_, ?_, ?_, ?_⟩ <;>
    simp [performCheck, checkAttempts, checkBackoff, checkURL, h]

/-- Witness for C7 at a concrete input: a gopher target is rejected as an
unsupported protocol with no attempt made. -/
theorem c7_unsupported_protocol_witness :
    performCheck 2 envRefused uGopher =
      (0, some (CheckError.unsupportedProtocol "gopher")) ∧
    checkAttempts 2 envRefused uGopher = 0 ∧
    checkBackoff 2 envRefused uGopher = 0 ∧
    (checkURL 2 envRefused (fun _ => 1) 0 uGopher).error =
      some (CheckError.unsupportedProtocol "gopher") ∧
    (checkURL 2 envRefused (fun _ => 1) 0 uGopher).statusCode = 0 :=
  c7_unsupported_protocol 2 envRefused (fun _ => 1) 0 uGopher rfl

/-- Counterexample to C1 as stated: a connection-refused raw-connect target
(ftp with explicit port 21) with retries = 2 performs exactly one attempt,
not three, with zero backoff wait, before its terminal error result — the
per-target task never retries non-HTTP targets. -/
theorem c1_counterexample :
    checkAttempts 2 envRefused uFtp = 1 ∧
    checkAttempts 2 envRefused uFtp ≠ 3 ∧
    checkBackoff 2 envRefused uFtp = 0 ∧
    (performCheck 2 envRefused uFtp).2 =
      some (CheckError.connectionFailed "db.example" 21) := by
  refine ⟨rfl, by decide, rfl, rfl⟩

/-- C1 (amended): only HTTP/HTTPS targets are retried, inside the rest
client configured by New with RetryCount = Retries and a one-second base
wait (its retry engine modelled from the spec as a linear backoff of
attempt × 1s): when every attempt is a connection-level failure, exactly
Retries + 1 attempts run with a total backoff of 1 + 2 + ... + Retries
seconds and the outcome is a terminal error; the first non-error attempt —
whatever its HTTP status — stops the sequence immediately with no error in
the result; raw-connect targets always perform at most one attempt with no
backoff. -/
theorem c1_retry_policy :
    (∀ retries env u, schemeKind u.scheme = some ProtoKind.httpKind →
        (∀ k, k ≤ retries → isTransportError (env.restOutcomes k) = true) →
        checkAttempts retries env u = retries + 1 ∧
        checkBackoff retries env u = retries * (retries + 1) / 2 ∧
        (performCheck retries env u).2.isSome = true) ∧
    (∀ retries env u n, schemeKind u.scheme = some ProtoKind.httpKind →
        n ≤ retries →
        (∀ k, k < n → isTransportError (env.restOutcomes k) = true) →
        isTransportError (env.restOutcomes n) = false →
        checkAttempts retries env u = n + 1 ∧
        (performCheck retries env u).2 = none) ∧
    (∀ retries env u, schemeKind u.scheme = some ProtoKind.telnetKind →
        checkAttempts retries env u ≤ 1 ∧ checkBackoff retries env u = 0) := by
  refine ⟨?_, ?_, ?_⟩
  · intro retries env u h hall
    have hidx : restFinalIndex env retries = retries := by
      unfold restFinalIndex
      have h0 : restStop (fun k => isTransportError (env.restOutcomes k)) 0 retries =
          0 + retries := by
        refine restStop_all _ retries 0 ?_
        intro k _ hk
        exact hall k (by omega)
      simpa using h0
    refine ⟨?_, ?_, ?_⟩
    · simp [checkAttempts, h, restAttempts, hidx]
    · simp [checkBackoff, h, restBackoff, hidx]
    · simp only [performCheck, h]
      rw [httpCheck_error_iff]
      unfold makeRequest
      rw [hidx]
      exact hall retries (Nat.le_refl retries)
  · intro retries env u n h hn hall hstop
    have hidx : restFinalIndex env retries = n := by
      unfold restFinalIndex
      refine restStop_first _ retries 0 n (Nat.zero_le n) (by omega) ?_ hstop
      intro k _ hk
      exact hall k hk
    refine ⟨?_, ?_⟩
    · simp [checkAttempts, h, restAttempts, hidx]
    · simp only [performCheck, h]
      refine httpCheck_error_none _ ?_
      unfold makeRequest
      rw [hidx]
      exact hstop
  · intro retries env u h
    refine ⟨?_, ?_⟩
    · cases hp : TelnetChecker.effectivePort u <;>
        simp [checkAttempts, h, hp]
    · simp [checkBackoff, h]

/-- Witness for C1 at a concrete input: an all-refused HTTP target with
retries = 2 performs 3 attempts with a total backoff of 3 seconds and ends
in an error. -/
theorem c1_retry_policy_witness :
    checkAttempts 2 envRefused uHttpSample = 3 ∧
    checkBackoff 2 envRefused uHttpSample = 3 ∧
    (performCheck 2 envRefused uHttpSample).2.isSome = true :=
  c1_retry_policy.1 2 envRefused uHttpSample rfl (fun _ _ => rfl)

/-- Counterexample to C8 as stated: in a run whose check takes nonzero
time, the emitted result is stamped with the entry time, not the completion
time, and after an internal retry its response time is the whole call's
elapsed time (two 10-unit attempts plus a 1-second backoff, 21), not the
final attempt's 10. -/
theorem c8_counterexample :
    (checkURL 1 envRetryOk (fun _ => 10) 100 uHttpSample).timestamp = 100 ∧
    checkCompletionTime 1 envRetryOk (fun _ => 10) 100 uHttpSample = 121 ∧
    (checkURL 1 envRetryOk (fun _ => 10) 100 uHttpSample).timestamp ≠
      checkCompletionTime 1 envRetryOk (fun _ => 10) 100 uHttpSample ∧
    (checkURL 1 envRetryOk (fun _ => 10) 100 uHttpSample).responseTime = 21 ∧
    (checkURL 1 envRetryOk (fun _ => 10) 100 uHttpSample).responseTime ≠ 10 := by
  refine ⟨rfl, rfl, by decide, rfl, by decide⟩

/-- C8 (amended): the result is timestamped at entry to checkURL, before
the check; on success its response time is the elapsed time of the entire
performCheck call — for HTTP targets the sum of every rest-client attempt
plus the backoff waits, hence at least the final attempt's duration — and
on error the response time is left zero. -/
theorem c8_timing :
    ∀ retries env attemptDur t0 u,
      (checkURL retries env attemptDur t0 u).timestamp = t0 ∧
      ((checkURL retries env attemptDur t0 u).error = none →
        (checkURL retries env attemptDur t0 u).responseTime =
          checkDuration retries env attemptDur u) ∧
      ((checkURL retries env attemptDur t0 u).error ≠ none →
        (checkURL retries env attemptDur t0 u).responseTime = 0) ∧
      (schemeKind u.scheme = some ProtoKind.httpKind →
        checkDuration retries env attemptDur u =
          ((List.range (restFinalIndex env retries + 1)).map attemptDur).sum +
            restBackoff env retries ∧
        attemptDur (restFinalIndex env retries) ≤
          checkDuration retries env attemptDur u) := by
  intro retries env attemptDur t0 u
  refine ⟨?_, ?_, ?_, ?_⟩
  · unfold checkURL
    cases hco : (performCheck retries env u).2 <;> simp [hco]
  · unfold checkURL
    cases hco : (performCheck retries env u).2 <;> simp [hco]
  · unfold checkURL
    cases hco : (performCheck retries env u).2 <;> simp [hco]
  · intro h
    constructor
    · simp [checkDuration, h, restAttempts]
    · have hmem : attemptDur (restFinalIndex env retries) ∈
          (List.range (restAttempts env retries)).map attemptDur := by
        refine List.mem_map.mpr ⟨restFinalIndex env retries, ?_, rfl⟩
        exact List.mem_range.mpr (Nat.lt_succ_self _)
      have hle : attemptDur (restFinalIndex env retries) ≤
          ((List.range (restAttempts env retries)).map attemptDur).sum :=
        List.single_le_sum (fun x _ => Nat.zero_le x) _ hmem
      calc attemptDur (restFinalIndex env retries)
          ≤ ((List.range (restAttempts env retries)).map attemptDur).sum := hle
        _ ≤ ((List.range (restAttempts env retries)).map attemptDur).sum +
              restBackoff env retries := Nat.le_add_right _ _
        _ = checkDuration retries env attemptDur u := by
              simp [checkDuration, h]

/-- Witness for C8 at a concrete input: the retried run of the
counterexample environment is stamped with its entry time 100 and reports
the whole-call duration as its response time. -/
theorem c8_timing_witness :
    (checkURL 1 envRetryOk (fun _ => 10) 100 uHttpSample).timestamp = 100 ∧
    (checkURL 1 envRetryOk (fun _ => 10) 100 uHttpSample).responseTime =
      checkDuration 1 envRetryOk (fun _ => 10) uHttpSample := by
  have h := c8_timing 1 envRetryOk (fun _ => 10) 100 uHttpSample
  exact ⟨h.1, h.2.1 rfl⟩

/-- C3: in every reachable system state in which the ingest writer is
outside the locked region — the only states a Snapshot reader can observe,
since Collect holds the read lock — the store equals a whole number of
complete ingests applied to the initial state, so a last-result entry and
the counter increment of its outcome are both applied or both absent; in
particular every visible last result has a nonzero counter for its own
outcome label. -/
theorem c3_snapshot_atomicity :
    ∀ targets st, ReachableFrom targets st → st.phase = Phase.idle →
      (∃ rs, st.store = ingestAll (initState targets) rs) ∧
      pairConsistent st.store := by
  intro targets st hreach hidle
  have hinv := phaseInv_reachable targets st hreach
  obtain ⟨store, phase⟩ := st
  simp only at hidle
  subst hidle
  unfold phaseInv at hinv
  simp only at hinv
  obtain ⟨rs, hrs⟩ := hinv
  have hs : store = ingestAll (initState targets) rs := hrs
  subst hs
  exact ⟨⟨rs, rfl⟩, pairConsistent_ingestAll targets rs⟩

/-- Witness for C3 at a concrete input: the state after one complete ingest
of the sample result, reached by the four steps of the critical section, is
a whole number of ingests and pair-consistent. -/
theorem c3_snapshot_atomicity_witness :
    (∃ rs, stWitness.store = ingestAll (initState ["http://a"]) rs) ∧
    pairConsistent stWitness.store := by
  refine c3_snapshot_atomicity ["http://a"] stWitness ?_ rfl
  exact Relation.ReflTransGen.head
    (IngestStep.acquire (initState ["http://a"]) rSample)
    (Relation.ReflTransGen.head
      (IngestStep.writeLast (initState ["http://a"]) rSample)
      (Relation.ReflTransGen.head
        (IngestStep.writeCounter
          ⟨GoMap.insert (initState ["http://a"]).lastResults rSample.url rSample,
           (initState ["http://a"]).counters⟩ rSample)
        (Relation.ReflTransGen.single
          (IngestStep.release (ingest (initState ["http://a"]) rSample) rSample))))

/-- C10: in every state the ingest loop can produce, a target with a
nonzero counter entry also has a last result — the two are installed
together — so Collect's counter loop, which skips targets without a last
result, emits every nonzero counter value, labeled with that last result's
host and path. -/
theorem c10_nonzero_counter_has_result :
    ∀ ts rs iid u l,
      countOf (ingestAll (initState ts) rs) u l ≠ 0 →
      ∃ r, GoMap.find (ingestAll (initState ts) rs).lastResults u = some r ∧
        Metric.counter "url_check_total" [u, r.host, r.path, l, iid]
          (countOf (ingestAll (initState ts) rs) u l) ∈
          collect iid (ingestAll (initState ts) rs) := by
  intro ts rs iid u l h
  have hcnt : (rs.filter
      (fun r => decide (u = r.url ∧ l = statusLabel r))).length ≠ 0 := by
    have hcount := countOf_ingestAll (initState ts) rs u l
    rw [countOf_init] at hcount
    rw [hcount] at h
    simpa using h
  have hex : ∃ r, r ∈ rs ∧ u = r.url ∧ l = statusLabel r := by
    cases hf : rs.filter (fun r => decide (u = r.url ∧ l = statusLabel r)) with
    | nil => rw [hf] at hcnt; simp at hcnt
    | cons r0 rest =>
        have hr0 : r0 ∈ rs.filter
            (fun r => decide (u = r.url ∧ l = statusLabel r)) := by
          rw [hf]
          exact List.mem_cons_self _ _
        have hsplit := List.mem_filter.mp hr0
        exact ⟨r0, hsplit.1, by simpa using hsplit.2⟩
  obtain ⟨r0, hr0mem, hurl, _⟩ := hex
  have hsome : (GoMap.find (ingestAll (initState ts) rs).lastResults u).isSome =
      true :=
    lastResults_ingestAll_isSome rs (initState ts) u
      (Or.inr ⟨r0, hr0mem, hurl.symm⟩)
  obtain ⟨r, hr⟩ := Option.isSome_iff_exists.mp hsome
  obtain ⟨inner, n, hc, hl, hn⟩ := countOf_nonzero_structure _ u l h
  refine ⟨r, hr, ?_⟩
  have hmem := counter_mem_collect iid _ u l n r inner hc hl hr
  rw [hn] at hmem
  exact hmem

/-- Witness for C10 at a concrete input: after ingesting one 200 result for
http://a, the nonzero "200" counter of that target is emitted. -/
theorem c10_nonzero_counter_has_result_witness :
    ∃ r, GoMap.find
        (ingestAll (initState ["http://a"]) [rSample]).lastResults "http://a" =
          some r ∧
      Metric.counter "url_check_total" ["http://a", r.host, r.path, "200", "inst"]
        (countOf (ingestAll (initState ["http://a"]) [rSample]) "http://a" "200") ∈
        collect "inst" (ingestAll (initState ["http://a"]) [rSample]) :=
  c10_nonzero_counter_has_result ["http://a"] [rSample] "inst" "http://a" "200"
    (by decide)
